import Mathlib

/-!
Shallow embedding of the SSH-certificate subsystem of this repository:
`lib/protocol/sshCertificate.js` (format sniffer `isCertificate`, codec
`parseSSHCertificate`, validator `validateCertificate`) and the certified-key
adapter (`CertificateKey`, `wrapKeyWithCertificate`,
`extractCertificateFromData`).

Modelling conventions:
* A Node `Buffer` is a `List Nat` of bytes.  An argument of JS type
  "anything" that the code probes with `Buffer.isBuffer` is an
  `Option (List Nat)`: `none` models any non-buffer value.
* `Buffer.prototype.slice(start, end)` clamps both indices to the buffer,
  returns empty when `start ≥ end`; we model it as `drop`/`take` (`sliceL`).
* Text decoded with `toString('utf8')` and then tested only against ASCII
  literals (`startsWith('ssh-rsa')`, `includes('-cert-v')`) is kept as raw
  bytes: for a pure-ASCII pattern, the decoded JS text starts with /
  contains the pattern iff the raw bytes start with / contain the
  pattern's ASCII bytes (UTF-8 replacement characters are non-ASCII and
  never consume neighbouring ASCII bytes), so byte-level tests are exact.
* Certificate fields that the code stores as decoded text (`keyId`,
  the principals) are likewise kept as the underlying bytes.
* The validator compares already-decoded JS strings; there the model uses
  Lean `String`.
* Errors: the JS functions return (never throw past their boundary)
  `Error` objects with fixed messages; we model them as inductives, one
  constructor per distinct message site (noted at each constructor).
* The wall clock read by `validateCertificate` (`Date.now()/1000`) is an
  explicit `now : Nat` parameter.
-/

/-- `readUInt32BE(buf, pos)` from the protocol utilities (the file itself
is not in this source set). Modelled from the spec: "all variable-length
fields use an unsigned 32-bit big-endian length prefix" — four bytes,
big-endian, most significant first.  Out-of-range byte indexing is never
reached through the guarded readers below; the unguarded in-loop uses in
`parseSSHCertificate` are modelled case-by-case at their call sites. -/
def readUInt32BE (buf : List Nat) (pos : Nat) : Nat :=
  buf.getD pos 0 * 16777216 + buf.getD (pos + 1) 0 * 65536 +
    buf.getD (pos + 2) 0 * 256 + buf.getD (pos + 3) 0

/-- `buf.slice(start, start + len)` — clamping, never out of bounds. -/
def sliceL (buf : List Nat) (start len : Nat) : List Nat :=
  (buf.drop start).take len

/-- Byte-level `String.prototype.startsWith` for an ASCII pattern. -/
def startsWithSeq : List Nat → List Nat → Bool
  | _, [] => true
  | [], _ :: _ => false
  | b :: bs, p :: ps => b == p && startsWithSeq bs ps

/-- Byte-level `String.prototype.includes` for an ASCII pattern. -/
def containsSeq : List Nat → List Nat → Bool
  | bs, pat =>
    if startsWithSeq bs pat then true
    else match bs with
      | [] => false
      | _ :: rest => containsSeq rest pat

/-- The distinct `Error` values produced by `parseSSHCertificate`. -/
inductive DecodeErr where
  /-- `'Invalid certificate buffer'`: not a buffer, or fewer than 8 bytes. -/
  | invalidBuffer : DecodeErr
  /-- `'Unexpected end of certificate'`: a bound-checked read fell short. -/
  | truncated : DecodeErr
  /-- `` `Unsupported certificate type: ${typeStr}` ``: unrecognised
  algorithm identifier (carried as its raw bytes). -/
  | unsupportedCertType (id : List Nat) : DecodeErr
deriving Repr, DecidableEq

/-- The record built by `parseSSHCertificate` (field names as in the JS
`cert` object; byte-typed where the JS stores buffers or decoded text). -/
structure SSHCert where
  type : List Nat
  nonce : List Nat
  serial : Nat
  certType : String
  keyId : List Nat
  principals : List (List Nat)
  validAfter : Nat
  validBefore : Nat
  criticalOptions : List (List Nat × List Nat)
  extensions : List (List Nat × List Nat)
  signatureKeyBlob : List Nat
  signature : List Nat
deriving Repr, DecidableEq

/-- The inner `readString` closure of `parseSSHCertificate`: bound-check
4 length bytes, read the big-endian length, bound-check the payload,
return the payload and the advanced cursor. -/
def readStringA (buf : List Nat) (pos : Nat) :
    Except DecodeErr (List Nat × Nat) :=
  if buf.length < pos + 4 then .error .truncated
  else
    let len := readUInt32BE buf pos
    if buf.length < pos + 4 + len then .error .truncated
    else .ok (sliceL buf (pos + 4) len, pos + 4 + len)

/-- The inner `readUInt64` closure: bound-check 8 bytes, read big-endian. -/
def readUInt64A (buf : List Nat) (pos : Nat) :
    Except DecodeErr (Nat × Nat) :=
  if buf.length < pos + 8 then .error .truncated
  else
    .ok (buf.getD pos 0 * 72057594037927936 +
      buf.getD (pos + 1) 0 * 281474976710656 +
      buf.getD (pos + 2) 0 * 1099511627776 +
      buf.getD (pos + 3) 0 * 4294967296 +
      buf.getD (pos + 4) 0 * 16777216 + buf.getD (pos + 5) 0 * 65536 +
      buf.getD (pos + 6) 0 * 256 + buf.getD (pos + 7) 0, pos + 8)

/-- The inner `readUInt32` closure: bound-check 4 bytes, read big-endian. -/
def readUInt32A (buf : List Nat) (pos : Nat) :
    Except DecodeErr (Nat × Nat) :=
  if buf.length < pos + 4 then .error .truncated
  else .ok (readUInt32BE buf pos, pos + 4)

/-- ASCII bytes of `"ssh-rsa"`. -/
def sshRsaId : List Nat := [115, 115, 104, 45, 114, 115, 97]

/-- ASCII bytes of `"ecdsa-sha2-nistp"`. -/
def ecdsaId : List Nat :=
  [101, 99, 100, 115, 97, 45, 115, 104, 97, 50, 45, 110, 105, 115, 116, 112]

/-- ASCII bytes of `"ssh-ed25519"`. -/
def sshEd25519Id : List Nat :=
  [115, 115, 104, 45, 101, 100, 50, 53, 53, 49, 57]

/-- ASCII bytes of `"ssh-dss"`. -/
def sshDssId : List Nat := [115, 115, 104, 45, 100, 115, 115]

/-- The `startsWith` dispatch chain of `parseSSHCertificate` (lines 79-98),
expressed as the number of key-material fields it skips: `ssh-rsa*` → 2
(`e`, `n`), `ecdsa-sha2-nistp*` → 2 (curve id, point), `ssh-ed25519*` → 1
(public key), `ssh-dss*` → 4 (`p`, `q`, `g`, `y`); anything else → `none`
(the `Unsupported certificate type` arm). -/
def keySkipCount (typeStr : List Nat) : Option Nat :=
  if startsWithSeq typeStr sshRsaId then some 2
  else if startsWithSeq typeStr ecdsaId then some 2
  else if startsWithSeq typeStr sshEd25519Id then some 1
  else if startsWithSeq typeStr sshDssId then some 4
  else none

/-- `k` successive discarded `readString()` calls (the key-material skip). -/
def skipFields (buf : List Nat) (pos : Nat) : Nat → Except DecodeErr Nat
  | 0 => .ok pos
  | k + 1 =>
    match readStringA buf pos with
    | .error e => .error e
    | .ok (_, pos') => skipFields buf pos' k

/-- The `while (pPos < principalsBuffer.length)` loop of field 8.  The
loop reads a 4-byte length with the unguarded `readUInt32BE` and slices.
When the 4 length bytes are inside the sub-buffer, the slice clamps at
the end of the sub-buffer (even if the length over-claims) and the cursor
jumps by `4 + len`.  When they are not, the JS read yields `NaN`
(out-of-range `Buffer` indexing gives `undefined`): the slice
`slice(pPos, NaN)` is empty, one empty principal is pushed, and the
`NaN` cursor ends the loop. -/
def parsePrincipalsLoop (pb : List Nat) (pPos : Nat) : List (List Nat) :=
  if pPos < pb.length then
    if pPos + 4 ≤ pb.length then
      let len := readUInt32BE pb pPos
      sliceL pb (pPos + 4) len :: parsePrincipalsLoop pb (pPos + 4 + len)
    else
      [[]]
  else []
termination_by pb.length - pPos
decreasing_by omega

/-- `obj[name] = data` on a JS object: overwrite an existing key in place,
otherwise append (JS objects keep insertion order for string keys). -/
def setPair (m : List (List Nat × List Nat)) (name data : List Nat) :
    List (List Nat × List Nat) :=
  match m with
  | [] => [(name, data)]
  | (n, d) :: rest =>
    if n = name then (n, data) :: rest else (n, d) :: setPair rest name data

/-- The `while (cPos < buffer.length)` loops of fields 11 and 12
(critical options / extensions): read a name length, slice the name, read
a data length, slice the data, store the pair.  `NaN` propagation of the
unguarded reads (see `parsePrincipalsLoop`): an out-of-range name-length
read yields an empty name, a `NaN` data length, an empty data slice and
loop exit; an out-of-range data-length read (including after a name slice
whose claimed length jumped the cursor past the end) yields an empty data
slice and loop exit. -/
def parseOptsLoop (ob : List Nat) (cPos : Nat)
    (acc : List (List Nat × List Nat)) : List (List Nat × List Nat) :=
  if cPos < ob.length then
    if cPos + 4 ≤ ob.length then
      let nameLen := readUInt32BE ob cPos
      let name := sliceL ob (cPos + 4) nameLen
      let p2 := cPos + 4 + nameLen
      if p2 + 4 ≤ ob.length then
        let dataLen := readUInt32BE ob p2
        let data := sliceL ob (p2 + 4) dataLen
        parseOptsLoop ob (p2 + 4 + dataLen) (setPair acc name data)
      else
        setPair acc name []
    else
      setPair acc [] []
  else acc
termination_by ob.length - cPos
decreasing_by omega

/-- Fields 5-15 of `parseSSHCertificate`, after the key-material skip:
serial, type number, key id, principals, validity window, critical
options, extensions, reserved, signature key, signature. -/
def parseAfterSkips (buf : List Nat) (typeStr nonce : List Nat)
    (pos : Nat) : Except DecodeErr SSHCert :=
  match readUInt64A buf pos with
  | .error e => .error e
  | .ok (serial, p5) =>
    match readUInt32A buf p5 with
    | .error e => .error e
    | .ok (typeNum, p6) =>
      let certType :=
        if typeNum = 1 then "user" else if typeNum = 2 then "host"
        else "unknown"
      match readStringA buf p6 with
      | .error e => .error e
      | .ok (keyId, p7) =>
        match readStringA buf p7 with
        | .error e => .error e
        | .ok (principalsBuffer, p8) =>
          let principals := parsePrincipalsLoop principalsBuffer 0
          match readUInt64A buf p8 with
          | .error e => .error e
          | .ok (validAfter, p9) =>
            match readUInt64A buf p9 with
            | .error e => .error e
            | .ok (validBefore, p10) =>
              match readStringA buf p10 with
              | .error e => .error e
              | .ok (criticalBuffer, p11) =>
                let criticalOptions := parseOptsLoop criticalBuffer 0 []
                match readStringA buf p11 with
                | .error e => .error e
                | .ok (extensionsBuffer, p12) =>
                  let extensions := parseOptsLoop extensionsBuffer 0 []
                  match readStringA buf p12 with
                  | .error e => .error e
                  | .ok (_, p13) =>
                    match readStringA buf p13 with
                    | .error e => .error e
                    | .ok (signatureKeyBlob, p14) =>
                      match readStringA buf p14 with
                      | .error e => .error e
                      | .ok (signature, _) =>
                        .ok { type := typeStr, nonce := nonce,
                              serial := serial, certType := certType,
                              keyId := keyId, principals := principals,
                              validAfter := validAfter,
                              validBefore := validBefore,
                              criticalOptions := criticalOptions,
                              extensions := extensions,
                              signatureKeyBlob := signatureKeyBlob,
                              signature := signature }

/-- `parseSSHCertificate(certBuffer)` on an actual buffer: the initial
`length < 8` rejection, the type string, the nonce, the key-material
dispatch/skip, then the remaining fields.  The JS `throw`/`catch` of the
inner readers is the `Except` error channel; the `Unsupported certificate
type` arm is an early `return` of an `Error`, indistinguishable from a
caught one to every caller. -/
def parseSSHCertificateB (buf : List Nat) : Except DecodeErr SSHCert :=
  if buf.length < 8 then .error .invalidBuffer
  else
    match readStringA buf 0 with
    | .error e => .error e
    | .ok (typeStr, p1) =>
      match readStringA buf p1 with
      | .error e => .error e
      | .ok (nonce, p2) =>
        match keySkipCount typeStr with
        | none => .error (.unsupportedCertType typeStr)
        | some k =>
          match skipFields buf p2 k with
          | .error e => .error e
          | .ok p3 => parseAfterSkips buf typeStr nonce p3

/-- `parseSSHCertificate` on an arbitrary value: `Buffer.isBuffer` fails
on `none` and the function returns `Error('Invalid certificate buffer')`. -/
def parseSSHCertificate (certBuffer : Option (List Nat)) :
    Except DecodeErr SSHCert :=
  match certBuffer with
  | none => .error .invalidBuffer
  | some buf => parseSSHCertificateB buf

/-- ASCII bytes of `"-cert-v"`. -/
def certVPat : List Nat := [45, 99, 101, 114, 116, 45, 118]

/-- `isCertificate(data)` on an actual buffer: reject under 16 bytes,
read the first 4-byte big-endian length, reject it over 64 or
over-claiming, and test the first field for `"-cert-v"`. -/
def isCertificateB (data : List Nat) : Bool :=
  if data.length < 16 then false
  else
    let len := readUInt32BE data 0
    if 64 < len ∨ data.length < 4 + len then false
    else containsSeq (sliceL data 4 len) certVPat

/-- `isCertificate(data)` on an arbitrary value (`false` for non-buffers). -/
def isCertificate (data : Option (List Nat)) : Bool :=
  match data with
  | none => false
  | some b => isCertificateB b

/-- The view of a parsed certificate that `validateCertificate` reads:
already-decoded JS strings for `certType` and the principals, `BigInt`
validity bounds as `Nat`. -/
structure VCert where
  certType : String
  principals : List String
  validAfter : Nat
  validBefore : Nat
deriving Repr, DecidableEq

/-- The `{valid, reason}` object returned by `validateCertificate`. -/
structure Verdict where
  valid : Bool
  reason : Option String
deriving Repr, DecidableEq

/-- `validateCertificate(cert, username)` with the wall clock `now` as a
parameter.  A failure input (`cert instanceof Error`) carries its message
string.  `cert.validBefore && ...` / `cert.validAfter && ...`: a `BigInt`
is falsy exactly when it is `0n`, so a zero bound disables its check. -/
def validateCertificate (cert : Sum String VCert) (username : String)
    (now : Nat) : Verdict :=
  match cert with
  | .inl msg => { valid := false, reason := some msg }
  | .inr c =>
    if c.validBefore ≠ 0 ∧ c.validBefore ≤ now then
      { valid := false, reason := some "Certificate has expired" }
    else if c.validAfter ≠ 0 ∧ now < c.validAfter then
      { valid := false, reason := some "Certificate is not yet valid" }
    else if c.certType = "user" ∧ c.principals ≠ [] ∧
        username ∉ c.principals then
      { valid := false,
        reason := some ("Username \"" ++ username ++
          "\" not in certificate principals: " ++
          String.intercalate ", " c.principals) }
    else { valid := true, reason := none }

/-- The `BaseKey` capability consumed by the adapter: `type` and
`comment` properties, `sign` / `verify` / `isPrivateKey`, and the
optional (`?.`-called) `getPublicSSH` / `getPublicPEM`. -/
structure BaseKey where
  type : String
  comment : String
  isPriv : Bool
  sign : List Nat → String → List Nat
  verify : List Nat → List Nat → String → Bool
  getPublicSSH : Option (String → List Nat)
  getPublicPEM : Option (List Nat)

/-- The `CertificateKey` class: its constructor copies `type` and
`comment` from the base key and stores the base key, the parsed
certificate and the raw certificate buffer. -/
structure CertificateKey where
  baseKey : BaseKey
  certificate : SSHCert
  certBuffer : List Nat
  type : String
  comment : String

/-- `new CertificateKey(baseKey, certificate, certBuffer)`. -/
def CertificateKey.mk' (baseKey : BaseKey) (certificate : SSHCert)
    (certBuffer : List Nat) : CertificateKey :=
  { baseKey := baseKey, certificate := certificate,
    certBuffer := certBuffer, type := baseKey.type,
    comment := baseKey.comment }

/-- `CertificateKey.prototype.isPrivateKey`. -/
def CertificateKey.isPriv (k : CertificateKey) : Bool :=
  k.baseKey.isPriv

/-- `CertificateKey.prototype.getPublicPEM` (`?.` call on the base key). -/
def CertificateKey.getPublicPEM (k : CertificateKey) : Option (List Nat) :=
  k.baseKey.getPublicPEM

/-- `CertificateKey.prototype.getPublicSSH` (`?.` call on the base key). -/
def CertificateKey.getPublicSSH (k : CertificateKey) (algo : String) :
    Option (List Nat) :=
  k.baseKey.getPublicSSH.map (fun f => f algo)

/-- `CertificateKey.prototype.sign`. -/
def CertificateKey.sign (k : CertificateKey) (data : List Nat)
    (algo : String) : List Nat :=
  k.baseKey.sign data algo

/-- `CertificateKey.prototype.verify`. -/
def CertificateKey.verify (k : CertificateKey) (data signature : List Nat)
    (algo : String) : Bool :=
  k.baseKey.verify data signature algo

/-- `CertificateKey.prototype.getCertificate`. -/
def CertificateKey.getCertificate (k : CertificateKey) : SSHCert :=
  k.certificate

/-- `CertificateKey.prototype.getCertificateBuffer`. -/
def CertificateKey.getCertificateBuffer (k : CertificateKey) : List Nat :=
  k.certBuffer

/-- The `Error` values returned by `wrapKeyWithCertificate`. -/
inductive WrapErr where
  /-- `'Certificate must be a Buffer'`. -/
  | notABuffer : WrapErr
  /-- `'Buffer does not appear to be a certificate'`. -/
  | notACertificate : WrapErr
  /-- The `Error` returned by `parseSSHCertificate`, passed through
  unchanged. -/
  | decodeFailed (e : DecodeErr) : WrapErr
deriving Repr, DecidableEq

/-- `wrapKeyWithCertificate(key, certBuffer)`: reject non-buffers, reject
what the sniffer rejects, parse, propagate a parse failure unchanged,
otherwise build the `CertificateKey`. -/
def wrapKeyWithCertificate (key : BaseKey)
    (certBuffer : Option (List Nat)) : Except WrapErr CertificateKey :=
  match certBuffer with
  | none => .error .notABuffer
  | some cb =>
    if isCertificateB cb then
      match parseSSHCertificateB cb with
      | .error e => .error (.decodeFailed e)
      | .ok certificate => .ok (CertificateKey.mk' key certificate cb)
    else .error .notACertificate

/-- The three-way result of `extractCertificateFromData`: an `Error`
(`'Data must be a Buffer'`), `null`, or `{ certBuffer }`. -/
inductive ExtractResult where
  | err : ExtractResult
  | nullResult : ExtractResult
  | found (certBuffer : List Nat) : ExtractResult
deriving Repr, DecidableEq

/-- `extractCertificateFromData(data)`: `Error` for non-buffers, `null`
when the sniffer rejects, otherwise `{ certBuffer: data }` — the codec is
never consulted. -/
def extractCertificateFromData (data : Option (List Nat)) :
    ExtractResult :=
  match data with
  | none => .err
  | some b => if isCertificateB b then .found b else .nullResult

/-! ## Concrete inputs used by counterexamples and witnesses -/

/-- ASCII bytes of `"ssh-ed25519-cert-v01@openssh.com"`. -/
def ed25519CertId : List Nat :=
  [115, 115, 104, 45, 101, 100, 50, 53, 53, 49, 57, 45, 99, 101, 114, 116,
   45, 118, 48, 49, 64, 111, 112, 101, 110, 115, 115, 104, 46, 99, 111, 109]

/-- A principals sub-field whose single inner length prefix claims 100
bytes while only 2 remain in the enclosing region. -/
def exPrincipalsOverClaim : List Nat := [0, 0, 0, 100, 65, 66]

/-- A complete ed25519 certificate buffer whose principals sub-field is
`exPrincipalsOverClaim`: type, empty nonce, empty public key, serial 7,
type number 1 (user), empty key id, the over-claiming principals, zero
validity bounds, empty critical options / extensions / reserved /
signature key / signature. -/
def exCertBuf : List Nat :=
  [0, 0, 0, 32] ++ ed25519CertId ++
  [0, 0, 0, 0] ++ [0, 0, 0, 0] ++ [0, 0, 0, 0, 0, 0, 0, 7] ++
  [0, 0, 0, 1] ++ [0, 0, 0, 0] ++
  [0, 0, 0, 6] ++ exPrincipalsOverClaim ++
  [0, 0, 0, 0, 0, 0, 0, 0] ++ [0, 0, 0, 0, 0, 0, 0, 0] ++
  [0, 0, 0, 0] ++ [0, 0, 0, 0] ++ [0, 0, 0, 0] ++ [0, 0, 0, 0] ++
  [0, 0, 0, 0]

/-- The record that `parseSSHCertificate` produces for `exCertBuf`: note
the lone principal `[65, 66]`, the clamped remainder of the enclosing
region, where the wire data claimed a 100-byte principal. -/
def exCert : SSHCert :=
  { type := ed25519CertId, nonce := [], serial := 7, certType := "user",
    keyId := [], principals := [[65, 66]], validAfter := 0,
    validBefore := 0, criticalOptions := [], extensions := [],
    signatureKeyBlob := [], signature := [] }

/-- A buffer that satisfies every condition of the sniffer except the
16-byte floor: 4-byte prefix declaring 7 bytes, then exactly `"-cert-v"`. -/
def exShortCertV : List Nat := [0, 0, 0, 7] ++ certVPat

/-- A buffer whose first field is the unsupported identifier `"x"` and
whose nonce field is still readable. -/
def exUnsupported : List Nat := [0, 0, 0, 1, 120, 0, 0, 0, 0]

/-- A buffer the sniffer accepts (first field `"x-cert-vabcd"`) but whose
decode fails: nothing follows the type field. -/
def exSniffOnly : List Nat :=
  [0, 0, 0, 12] ++ [120, 45, 99, 101, 114, 116, 45, 118, 97, 98, 99, 100]

/-- A base key with inert operations, for adapter witnesses. -/
def trivialKey : BaseKey :=
  { type := "ssh-ed25519", comment := "k", isPriv := true,
    sign := fun data _ => 0 :: data, verify := fun _ _ _ => true,
    getPublicSSH := some (fun _ => [1, 2]), getPublicPEM := some [3] }

/-! ## Helper lemmas: error shapes of the bound-checked readers -/

theorem readStringA_error {buf : List Nat} {pos : Nat} {e : DecodeErr}
    (h : readStringA buf pos = .error e) : e = .truncated := by
  by_cases h1 : buf.length < pos + 4
  · simp only [readStringA, if_pos h1, Except.error.injEq] at h
    exact h.symm
  · by_cases h2 : buf.length < pos + 4 + readUInt32BE buf pos
    · simp only [readStringA, if_neg h1, if_pos h2, Except.error.injEq] at h
      exact h.symm
    · simp only [readStringA, if_neg h1, if_neg h2] at h
      exact absurd h (by simp)

theorem readUInt64A_error {buf : List Nat} {pos : Nat} {e : DecodeErr}
    (h : readUInt64A buf pos = .error e) : e = .truncated := by
  by_cases h1 : buf.length < pos + 8
  · simp only [readUInt64A, if_pos h1, Except.error.injEq] at h
    exact h.symm
  · simp only [readUInt64A, if_neg h1] at h
    exact absurd h (by simp)

theorem readUInt32A_error {buf : List Nat} {pos : Nat} {e : DecodeErr}
    (h : readUInt32A buf pos = .error e) : e = .truncated := by
  by_cases h1 : buf.length < pos + 4
  · simp only [readUInt32A, if_pos h1, Except.error.injEq] at h
    exact h.symm
  · simp only [readUInt32A, if_neg h1] at h
    exact absurd h (by simp)

theorem skipFields_error {buf : List Nat} :
    ∀ {k pos : Nat} {e : DecodeErr}, skipFields buf pos k = .error e →
      e = .truncated := by
  intro k
  induction k with
  | zero => intro pos e h; simp [skipFields] at h
  | succ n ih =>
    intro pos e h
    simp only [skipFields] at h
    cases hr : readStringA buf pos with
    | error e' =>
      rw [hr] at h
      simp only [Except.error.injEq] at h
      exact h ▸ readStringA_error hr
    | ok r =>
      obtain ⟨s, p'⟩ := r
      rw [hr] at h
      exact ih h

theorem readStringA_ok_bounds {buf : List Nat} {pos : Nat}
    {s : List Nat} {p' : Nat} (h : readStringA buf pos = .ok (s, p')) :
    pos + 4 ≤ p' ∧ p' ≤ buf.length ∧
      p' = pos + 4 + readUInt32BE buf pos ∧
      s = sliceL buf (pos + 4) (readUInt32BE buf pos) := by
  by_cases h1 : buf.length < pos + 4
  · simp only [readStringA, if_pos h1] at h
    exact absurd h (by simp)
  · by_cases h2 : buf.length < pos + 4 + readUInt32BE buf pos
    · simp only [readStringA, if_neg h1, if_pos h2] at h
      exact absurd h (by simp)
    · simp only [readStringA, if_neg h1, if_neg h2, Except.ok.injEq,
        Prod.mk.injEq] at h
      exact ⟨by omega, by omega, h.2.symm, h.1.symm⟩


theorem readUInt64A_ok_bounds {buf : List Nat} {pos v p' : Nat}
    (h : readUInt64A buf pos = .ok (v, p')) :
    p' = pos + 8 ∧ p' ≤ buf.length := by
  by_cases h1 : buf.length < pos + 8
  · simp only [readUInt64A, if_pos h1] at h
    exact absurd h (by simp)
  · simp only [readUInt64A, if_neg h1, Except.ok.injEq, Prod.mk.injEq] at h
    exact ⟨h.2.symm, by omega⟩

theorem readUInt32A_ok_bounds {buf : List Nat} {pos v p' : Nat}
    (h : readUInt32A buf pos = .ok (v, p')) :
    p' = pos + 4 ∧ p' ≤ buf.length := by
  by_cases h1 : buf.length < pos + 4
  · simp only [readUInt32A, if_pos h1] at h
    exact absurd h (by simp)
  · simp only [readUInt32A, if_neg h1, Except.ok.injEq, Prod.mk.injEq] at h
    exact ⟨h.2.symm, by omega⟩

theorem readStringA_error_iff {buf : List Nat} {pos : Nat} {e : DecodeErr} :
    readStringA buf pos = .error e ↔
      e = .truncated ∧ (buf.length < pos + 4 ∨
        buf.length < pos + 4 + readUInt32BE buf pos) := by
  by_cases h1 : buf.length < pos + 4
  · simp only [readStringA, if_pos h1, Except.error.injEq]
    exact ⟨fun h => ⟨h.symm, Or.inl h1⟩, fun h => h.1.symm⟩
  · by_cases h2 : buf.length < pos + 4 + readUInt32BE buf pos
    · simp only [readStringA, if_neg h1, if_pos h2, Except.error.injEq]
      exact ⟨fun h => ⟨h.symm, Or.inr h2⟩, fun h => h.1.symm⟩
    · simp only [readStringA, if_neg h1, if_neg h2]
      constructor
      · intro h
        exact absurd h (by simp)
      · intro h
        exfalso
        rcases h.2 with h | h <;> omega

theorem readUInt64A_error_iff {buf : List Nat} {pos : Nat} {e : DecodeErr} :
    readUInt64A buf pos = .error e ↔
      e = .truncated ∧ buf.length < pos + 8 := by
  by_cases h1 : buf.length < pos + 8
  · simp only [readUInt64A, if_pos h1, Except.error.injEq]
    exact ⟨fun h => ⟨h.symm, h1⟩, fun h => h.1.symm⟩
  · simp only [readUInt64A, if_neg h1]
    constructor
    · intro h
      exact absurd h (by simp)
    · intro h
      omega

theorem readUInt32A_error_iff {buf : List Nat} {pos : Nat} {e : DecodeErr} :
    readUInt32A buf pos = .error e ↔
      e = .truncated ∧ buf.length < pos + 4 := by
  by_cases h1 : buf.length < pos + 4
  · simp only [readUInt32A, if_pos h1, Except.error.injEq]
    exact ⟨fun h => ⟨h.symm, h1⟩, fun h => h.1.symm⟩
  · simp only [readUInt32A, if_neg h1]
    constructor
    · intro h
      exact absurd h (by simp)
    · intro h
      omega

theorem readStringA_cases (buf : List Nat) (pos : Nat) :
    readStringA buf pos = .error .truncated ∨
      ∃ s p', readStringA buf pos = .ok (s, p') := by
  cases hr : readStringA buf pos with
  | error e => exact Or.inl (by rw [readStringA_error hr])
  | ok r => exact Or.inr ⟨r.1, r.2, rfl⟩

theorem readUInt64A_cases (buf : List Nat) (pos : Nat) :
    readUInt64A buf pos = .error .truncated ∨
      ∃ v p', readUInt64A buf pos = .ok (v, p') := by
  cases hr : readUInt64A buf pos with
  | error e => exact Or.inl (by rw [readUInt64A_error hr])
  | ok r => exact Or.inr ⟨r.1, r.2, rfl⟩

theorem readUInt32A_cases (buf : List Nat) (pos : Nat) :
    readUInt32A buf pos = .error .truncated ∨
      ∃ v p', readUInt32A buf pos = .ok (v, p') := by
  cases hr : readUInt32A buf pos with
  | error e => exact Or.inl (by rw [readUInt32A_error hr])
  | ok r => exact Or.inr ⟨r.1, r.2, rfl⟩

/-- Every failure of the post-skip field chain is the truncation error:
fields 5-15 can only fail by running out of buffer. -/
theorem parseAfterSkips_error {buf t nn : List Nat} {pos : Nat}
    {e : DecodeErr} (h : parseAfterSkips buf t nn pos = .error e) :
    e = .truncated := by
  unfold parseAfterSkips at h
  repeat' split at h
  all_goals
    simp_all only [readStringA_error_iff, readUInt64A_error_iff,
      readUInt32A_error_iff, Except.error.injEq, reduceCtorEq]

/-! ## Helper lemmas: the readers only look below their bound-checked
positions, so appending bytes preserves every successful read -/

theorem getD_append_lt (l l' : List Nat) :
    ∀ i, i < l.length → (l ++ l').getD i 0 = l.getD i 0 := by
  induction l with
  | nil =>
    intro i h
    simp at h
  | cons a t ih =>
    intro i h
    cases i with
    | zero => rfl
    | succ n =>
      simp only [List.cons_append, List.getD_cons_succ]
      exact ih n (by simpa using h)

theorem readUInt32BE_append {buf : List Nat} {pos : Nat} (extra : List Nat)
    (h : pos + 4 ≤ buf.length) :
    readUInt32BE (buf ++ extra) pos = readUInt32BE buf pos := by
  unfold readUInt32BE
  rw [getD_append_lt _ _ pos (by omega), getD_append_lt _ _ (pos + 1) (by omega),
    getD_append_lt _ _ (pos + 2) (by omega), getD_append_lt _ _ (pos + 3) (by omega)]

theorem sliceL_append {buf : List Nat} {start len : Nat} (extra : List Nat)
    (h : start + len ≤ buf.length) :
    sliceL (buf ++ extra) start len = sliceL buf start len := by
  unfold sliceL
  rw [List.drop_append_of_le_length (by omega),
    List.take_append_of_le_length (by simp [List.length_drop]; omega)]

theorem readStringA_append {buf : List Nat} {pos : Nat} {s : List Nat}
    {p' : Nat} (extra : List Nat) (h : readStringA buf pos = .ok (s, p')) :
    readStringA (buf ++ extra) pos = .ok (s, p') := by
  by_cases h1 : buf.length < pos + 4
  · simp only [readStringA, if_pos h1] at h
    exact absurd h (by simp)
  · by_cases h2 : buf.length < pos + 4 + readUInt32BE buf pos
    · simp only [readStringA, if_neg h1, if_pos h2] at h
      exact absurd h (by simp)
    · have hu : readUInt32BE (buf ++ extra) pos = readUInt32BE buf pos :=
        readUInt32BE_append extra (by omega)
      have g1 : ¬((buf ++ extra).length < pos + 4) := by
        simp only [List.length_append]
        omega
      have g2 : ¬((buf ++ extra).length < pos + 4 + readUInt32BE buf pos) := by
        simp only [List.length_append]
        omega
      simp only [readStringA, if_neg h1, if_neg h2] at h
      simp only [readStringA, hu, if_neg g1, if_neg g2]
      rw [sliceL_append extra (by omega)]
      exact h

theorem readUInt64A_append {buf : List Nat} {pos v p' : Nat}
    (extra : List Nat) (h : readUInt64A buf pos = .ok (v, p')) :
    readUInt64A (buf ++ extra) pos = .ok (v, p') := by
  by_cases h1 : buf.length < pos + 8
  · simp only [readUInt64A, if_pos h1] at h
    exact absurd h (by simp)
  · have g1 : ¬((buf ++ extra).length < pos + 8) := by
      simp only [List.length_append]
      omega
    simp only [readUInt64A, if_neg h1] at h
    simp only [readUInt64A, if_neg g1]
    rw [getD_append_lt _ _ pos (by omega), getD_append_lt _ _ (pos + 1) (by omega),
      getD_append_lt _ _ (pos + 2) (by omega), getD_append_lt _ _ (pos + 3) (by omega),
      getD_append_lt _ _ (pos + 4) (by omega), getD_append_lt _ _ (pos + 5) (by omega),
      getD_append_lt _ _ (pos + 6) (by omega), getD_append_lt _ _ (pos + 7) (by omega)]
    exact h

theorem readUInt32A_append {buf : List Nat} {pos v p' : Nat}
    (extra : List Nat) (h : readUInt32A buf pos = .ok (v, p')) :
    readUInt32A (buf ++ extra) pos = .ok (v, p') := by
  by_cases h1 : buf.length < pos + 4
  · simp only [readUInt32A, if_pos h1] at h
    exact absurd h (by simp)
  · have g1 : ¬((buf ++ extra).length < pos + 4) := by
      simp only [List.length_append]
      omega
    simp only [readUInt32A, if_neg h1] at h
    simp only [readUInt32A, if_neg g1,
      readUInt32BE_append extra (by omega : pos + 4 ≤ buf.length)]
    exact h

theorem skipFields_append {buf : List Nat} (extra : List Nat) :
    ∀ {k pos p'}, skipFields buf pos k = .ok p' →
      skipFields (buf ++ extra) pos k = .ok p' := by
  intro k
  induction k with
  | zero =>
    intro pos p' h
    simpa [skipFields] using h
  | succ n ih =>
    intro pos p' h
    simp only [skipFields] at h ⊢
    rcases readStringA_cases buf pos with hr | ⟨s, q, hr⟩
    · simp only [hr] at h
      exact absurd h (by simp)
    · simp only [hr] at h
      simp only [readStringA_append extra hr]
      exact ih h

theorem parseAfterSkips_append {buf t nn : List Nat} {pos : Nat}
    {c : SSHCert} (extra : List Nat)
    (h : parseAfterSkips buf t nn pos = .ok c) :
    parseAfterSkips (buf ++ extra) t nn pos = .ok c := by
  unfold parseAfterSkips at h ⊢
  rcases readUInt64A_cases buf pos with h1 | ⟨serial, p5, h1⟩
  · simp only [h1] at h
    exact absurd h (by simp)
  simp only [h1] at h
  simp only [readUInt64A_append extra h1]
  rcases readUInt32A_cases buf p5 with h2 | ⟨typeNum, p6, h2⟩
  · simp only [h2] at h
    exact absurd h (by simp)
  simp only [h2] at h
  simp only [readUInt32A_append extra h2]
  rcases readStringA_cases buf p6 with h3 | ⟨keyId, p7, h3⟩
  · simp only [h3] at h
    exact absurd h (by simp)
  simp only [h3] at h
  simp only [readStringA_append extra h3]
  rcases readStringA_cases buf p7 with h4 | ⟨pb, p8, h4⟩
  · simp only [h4] at h
    exact absurd h (by simp)
  simp only [h4] at h
  simp only [readStringA_append extra h4]
  rcases readUInt64A_cases buf p8 with h5 | ⟨va, p9, h5⟩
  · simp only [h5] at h
    exact absurd h (by simp)
  simp only [h5] at h
  simp only [readUInt64A_append extra h5]
  rcases readUInt64A_cases buf p9 with h6 | ⟨vb, p10, h6⟩
  · simp only [h6] at h
    exact absurd h (by simp)
  simp only [h6] at h
  simp only [readUInt64A_append extra h6]
  rcases readStringA_cases buf p10 with h7 | ⟨cbuf, p11, h7⟩
  · simp only [h7] at h
    exact absurd h (by simp)
  simp only [h7] at h
  simp only [readStringA_append extra h7]
  rcases readStringA_cases buf p11 with h8 | ⟨ebuf, p12, h8⟩
  · simp only [h8] at h
    exact absurd h (by simp)
  simp only [h8] at h
  simp only [readStringA_append extra h8]
  rcases readStringA_cases buf p12 with h9 | ⟨rbuf, p13, h9⟩
  · simp only [h9] at h
    exact absurd h (by simp)
  simp only [h9] at h
  simp only [readStringA_append extra h9]
  rcases readStringA_cases buf p13 with h10 | ⟨skb, p14, h10⟩
  · simp only [h10] at h
    exact absurd h (by simp)
  simp only [h10] at h
  simp only [readStringA_append extra h10]
  rcases readStringA_cases buf p14 with h11 | ⟨sg, p15, h11⟩
  · simp only [h11] at h
    exact absurd h (by simp)
  simp only [h11] at h
  simp only [readStringA_append extra h11]
  exact h

/-- Appending trailing bytes preserves a successful decode with the
identical record: the cursor never looks at them and decode never checks
that it consumed the whole buffer. -/
theorem parseSSHCertificateB_append {buf : List Nat} {c : SSHCert}
    (extra : List Nat) (h : parseSSHCertificateB buf = .ok c) :
    parseSSHCertificateB (buf ++ extra) = .ok c := by
  unfold parseSSHCertificateB at h ⊢
  by_cases hlen : buf.length < 8
  · simp only [if_pos hlen] at h
    exact absurd h (by simp)
  · have glen : ¬((buf ++ extra).length < 8) := by
      simp only [List.length_append]
      omega
    simp only [if_neg hlen] at h
    simp only [if_neg glen]
    rcases readStringA_cases buf 0 with h1 | ⟨typeStr, p1, h1⟩
    · simp only [h1] at h
      exact absurd h (by simp)
    simp only [h1] at h
    simp only [readStringA_append extra h1]
    rcases readStringA_cases buf p1 with h2 | ⟨nonce, p2, h2⟩
    · simp only [h2] at h
      exact absurd h (by simp)
    simp only [h2] at h
    simp only [readStringA_append extra h2]
    cases hk : keySkipCount typeStr with
    | none =>
      simp only [hk] at h
      exact absurd h (by simp)
    | some k =>
      simp only [hk] at h ⊢
      cases hs : skipFields buf p2 k with
      | error e =>
        rw [hs] at h
        simp at h
      | ok p3 =>
        rw [hs] at h
        simp only [skipFields_append extra hs]
        exact parseAfterSkips_append extra h

/-! ## Helper lemmas: the unchecked inner loops -/

/-- An inner principals length prefix that is readable but claims more
bytes than remain in the enclosing region does not fail: the slice is
clamped at the end of the region and the loop stops after this entry. -/
theorem parsePrincipalsLoop_overclaim {pb : List Nat} {pPos : Nat}
    (h4 : pPos + 4 ≤ pb.length)
    (hov : pb.length < pPos + 4 + readUInt32BE pb pPos) :
    parsePrincipalsLoop pb pPos =
      [sliceL pb (pPos + 4) (readUInt32BE pb pPos)] := by
  rw [parsePrincipalsLoop]
  simp only [if_pos (show pPos < pb.length by omega), if_pos h4]
  rw [parsePrincipalsLoop]
  simp only [if_neg (show ¬(pPos + 4 + readUInt32BE pb pPos < pb.length)
    by omega)]

theorem parsePrincipalsLoop_nil : parsePrincipalsLoop [] 0 = [] := by
  rw [parsePrincipalsLoop]
  norm_num

theorem parseOptsLoop_nil (acc : List (List Nat × List Nat)) :
    parseOptsLoop [] 0 acc = acc := by
  rw [parseOptsLoop]
  norm_num

/-- A successful byte-prefix test pins down the leading bytes. -/
theorem startsWithSeq_getD :
    ∀ {pat bs : List Nat}, startsWithSeq bs pat = true →
      ∀ i, i < pat.length → bs.getD i 0 = pat.getD i 0 := by
  intro pat
  induction pat with
  | nil =>
    intro bs _ i hi
    simp at hi
  | cons p ps ih =>
    intro bs h i hi
    cases bs with
    | nil => simp [startsWithSeq] at h
    | cons b bs' =>
      simp only [startsWithSeq, Bool.and_eq_true, beq_iff_eq] at h
      cases i with
      | zero => simpa using h.1
      | succ n =>
        simp only [List.getD_cons_succ]
        exact ih h.2 n (by simpa using hi)

/-! ## Helper lemmas: concrete evaluations of the well-founded loops -/

theorem exPrincipals_loop_eval :
    parsePrincipalsLoop exPrincipalsOverClaim 0 = [[65, 66]] := by
  have h4 : (0 : Nat) + 4 ≤ exPrincipalsOverClaim.length := by decide
  have hov : exPrincipalsOverClaim.length <
      0 + 4 + readUInt32BE exPrincipalsOverClaim 0 := by decide
  rw [parsePrincipalsLoop_overclaim h4 hov]
  decide

/-- The over-claiming certificate buffer decodes successfully to
`exCert`, with the clamped two-byte principal. -/
theorem exCertBuf_decodes : parseSSHCertificateB exCertBuf = .ok exCert := by
  have h0 : readStringA exCertBuf 0 = .ok (ed25519CertId, 36) := rfl
  have h1 : readStringA exCertBuf 36 = .ok ([], 40) := rfl
  have h2 : keySkipCount ed25519CertId = some 1 := rfl
  have h3 : skipFields exCertBuf 40 1 = .ok 44 := rfl
  have h4 : readUInt64A exCertBuf 44 = .ok (7, 52) := rfl
  have h5 : readUInt32A exCertBuf 52 = .ok (1, 56) := rfl
  have h6 : readStringA exCertBuf 56 = .ok ([], 60) := rfl
  have h7 : readStringA exCertBuf 60 = .ok (exPrincipalsOverClaim, 70) := rfl
  have h8 : readUInt64A exCertBuf 70 = .ok (0, 78) := rfl
  have h9 : readUInt64A exCertBuf 78 = .ok (0, 86) := rfl
  have h10 : readStringA exCertBuf 86 = .ok ([], 90) := rfl
  have h11 : readStringA exCertBuf 90 = .ok ([], 94) := rfl
  have h12 : readStringA exCertBuf 94 = .ok ([], 98) := rfl
  have h13 : readStringA exCertBuf 98 = .ok ([], 102) := rfl
  have h14 : readStringA exCertBuf 102 = .ok ([], 106) := rfl
  have hlen : ¬(exCertBuf.length < 8) := by decide
  unfold parseSSHCertificateB parseAfterSkips
  simp only [if_neg hlen, h0, h1, h2, h3, h4, h5, h6, h7, h8, h9, h10, h11,
    h12, h13, h14, exPrincipals_loop_eval, parseOptsLoop_nil]
  norm_num [exCert]

/-! ## Claims -/

/-- C1 (counterexample): `exCertBuf` is a buffer whose principals
sub-field (read at offset 60, enclosing region `exPrincipalsOverClaim`)
has an inner length prefix claiming 100 bytes while only 2 remain in the
region, yet `parseSSHCertificate` succeeds — it does not fail with the
truncated failure as the claim requires for inner length prefixes. -/
theorem c1_counterexample_inner_overclaim_decodes :
    readStringA exCertBuf 60 = .ok (exPrincipalsOverClaim, 70) ∧
    readUInt32BE exPrincipalsOverClaim 0 = 100 ∧
    exPrincipalsOverClaim.length = 6 ∧
    parseSSHCertificateB exCertBuf = .ok exCert :=
  ⟨rfl, rfl, rfl, exCertBuf_decodes⟩

/-- C1 (amended): every top-level field read of decode (the `readString`,
`readUInt64`, `readUInt32` closures) bound-checks the remaining length
and fails with the truncated failure on shortfall, and a successful read
returns exactly the declared bytes with the cursor still inside the
buffer — decode never reads past the end.  The inner length prefixes of
the principals / critical-options / extensions sub-fields, however, are
not bound-checked: a readable inner prefix that claims more bytes than
remain in its enclosing region yields a clamped slice and loop exit, not
a failure. -/
theorem c1_bound_checks_top_level_only (buf : List Nat) (pos : Nat) :
    (buf.length < pos + 4 → readStringA buf pos = .error .truncated) ∧
    (buf.length < pos + 4 + readUInt32BE buf pos →
      readStringA buf pos = .error .truncated) ∧
    (∀ s p', readStringA buf pos = .ok (s, p') →
      s.length = readUInt32BE buf pos ∧ p' = pos + 4 + s.length ∧
      p' ≤ buf.length) ∧
    (buf.length < pos + 8 → readUInt64A buf pos = .error .truncated) ∧
    (∀ v p', readUInt64A buf pos = .ok (v, p') →
      p' = pos + 8 ∧ p' ≤ buf.length) ∧
    (buf.length < pos + 4 → readUInt32A buf pos = .error .truncated) ∧
    (∀ v p', readUInt32A buf pos = .ok (v, p') →
      p' = pos + 4 ∧ p' ≤ buf.length) ∧
    (∀ pb pPos, pPos + 4 ≤ pb.length →
      pb.length < pPos + 4 + readUInt32BE pb pPos →
      parsePrincipalsLoop pb pPos =
        [sliceL pb (pPos + 4) (readUInt32BE pb pPos)]) := by
  refine ⟨?_, ?_, ?_, ?_, ?_, ?_, ?_, ?_⟩
  · intro h
    exact readStringA_error_iff.mpr ⟨rfl, Or.inl h⟩
  · intro h
    exact readStringA_error_iff.mpr ⟨rfl, Or.inr h⟩
  · intro s p' h
    obtain ⟨hle, hb, hp, hs⟩ := readStringA_ok_bounds h
    have hlen : s.length = readUInt32BE buf pos := by
      rw [hs]
      simp only [sliceL, List.length_take, List.length_drop]
      omega
    exact ⟨hlen, by omega, hb⟩
  · intro h
    exact readUInt64A_error_iff.mpr ⟨rfl, h⟩
  · intro v p' h
    exact readUInt64A_ok_bounds h
  · intro h
    exact readUInt32A_error_iff.mpr ⟨rfl, h⟩
  · intro v p' h
    exact readUInt32A_ok_bounds h
  · intro pb pPos h4 hov
    exact parsePrincipalsLoop_overclaim h4 hov

/-- C1 (witness for the amended claim): a 3-byte buffer fails the
4-byte length-prefix bound check, and the over-claiming principals
region decodes to its single clamped entry. -/
theorem c1_bound_checks_witness :
    readStringA [0, 0, 0] 0 = .error .truncated ∧
    parsePrincipalsLoop exPrincipalsOverClaim 0 =
      [sliceL exPrincipalsOverClaim 4 (readUInt32BE exPrincipalsOverClaim 0)] :=
  ⟨(c1_bound_checks_top_level_only [0, 0, 0] 0).1 (by decide),
   (c1_bound_checks_top_level_only [] 0).2.2.2.2.2.2.2 exPrincipalsOverClaim 0
     (by decide) (by decide)⟩

/-- C10: decode never checks that the cursor consumed the whole buffer:
appending any trailing bytes to a successfully-decoding buffer yields a
buffer that decodes to the field-for-field identical record. -/
theorem c10_trailing_bytes_ignored (buf extra : List Nat) (c : SSHCert)
    (h : parseSSHCertificate (some buf) = .ok c) :
    parseSSHCertificate (some (buf ++ extra)) = .ok c :=
  parseSSHCertificateB_append extra h

/-- C10 (witness): the concrete certificate buffer still decodes to the
same record with three junk bytes appended. -/
theorem c10_trailing_bytes_witness :
    parseSSHCertificate (some (exCertBuf ++ [9, 9, 9])) = .ok exCert :=
  c10_trailing_bytes_ignored exCertBuf [9, 9, 9] exCert exCertBuf_decodes

/-- C4 (counterexample): an 11-byte buffer meeting every condition of
the claim (length at least 4, prefix 7 at most 64, total length at least
4 + 7, first field exactly `"-cert-v"`) on which `isCertificate`
nevertheless returns `false` — the code requires at least 16 bytes. -/
theorem c4_counterexample_short_buffer :
    isCertificate (some exShortCertV) = false ∧
    4 ≤ exShortCertV.length ∧
    readUInt32BE exShortCertV 0 ≤ 64 ∧
    4 + readUInt32BE exShortCertV 0 ≤ exShortCertV.length ∧
    containsSeq (sliceL exShortCertV 4 (readUInt32BE exShortCertV 0))
      certVPat = true := by
  refine ⟨by decide, by decide, by decide, by decide, by decide⟩

/-- C4 (amended): `isCertificate` returns `true` iff the input is a byte
buffer of length at least 16 whose 4-byte big-endian prefix is at most
64, whose total length is at least 4 plus that prefix, and whose first
field contains `"-cert-v"`; in every other case — including every
non-buffer and every buffer shorter than 16 bytes — it returns `false`
(and, being a total function, it never throws). -/
theorem c4_isCertificate_characterisation (d : Option (List Nat)) :
    isCertificate d = true ↔
      ∃ b, d = some b ∧ 16 ≤ b.length ∧ readUInt32BE b 0 ≤ 64 ∧
        4 + readUInt32BE b 0 ≤ b.length ∧
        containsSeq (sliceL b 4 (readUInt32BE b 0)) certVPat = true := by
  cases d with
  | none => simp [isCertificate]
  | some b =>
    constructor
    · intro h
      simp only [isCertificate] at h
      by_cases h1 : b.length < 16
      · rw [isCertificateB, if_pos h1] at h
        exact absurd h (by simp)
      · by_cases h2 : 64 < readUInt32BE b 0 ∨ b.length < 4 + readUInt32BE b 0
        · simp only [isCertificateB, if_neg h1, if_pos h2] at h
          exact absurd h (by simp)
        · simp only [isCertificateB, if_neg h1, if_neg h2] at h
          rcases not_or.mp h2 with ⟨ha, hb⟩
          exact ⟨b, rfl, by omega, by omega, by omega, h⟩
    · rintro ⟨b2, hb2, h16, h64, hlen, hc⟩
      injection hb2 with hb2
      subst hb2
      simp only [isCertificate, isCertificateB,
        if_neg (show ¬b.length < 16 by omega),
        if_neg (show ¬(64 < readUInt32BE b 0 ∨
          b.length < 4 + readUInt32BE b 0) by push_neg; exact ⟨h64, by omega⟩)]
      exact hc

/-- A certificate with both validity bounds zero, for the C2
counterexample: `BigInt(0)` is falsy, so both temporal checks are
skipped. -/
def exZeroCert : VCert :=
  { certType := "user", principals := [], validAfter := 0,
    validBefore := 0 }

/-- C2 (counterexample): at `now = 5` the certificate with
`validBefore = 0` is accepted by the validator even though
`now ≥ validBefore`, where the claim requires the invalid verdict
"Certificate has expired" (and the half-open window `5 < 0` is empty). -/
theorem c2_counterexample_zero_bounds :
    validateCertificate (Sum.inr exZeroCert) "u" 5 =
      { valid := true, reason := none } ∧
    exZeroCert.validBefore ≤ 5 := by
  exact ⟨by decide, by decide⟩

/-- C2 (amended): for certificates whose `validAfter` and `validBefore`
are both nonzero, the temporal verdict realises the half-open window:
if `now ≥ validBefore` the verdict is invalid with reason "Certificate
has expired"; if `now < validBefore` and `now < validAfter` the verdict
is invalid with reason "Certificate is not yet valid"; if
`validAfter ≤ now < validBefore` the verdict is exactly the verdict of
the same certificate with the temporal checks disabled (both bounds
zero); and outside the window the verdict is always one of the two
temporal failures.  A zero bound disables its check. -/
theorem c2_temporal_window (c : VCert) (u : String) (now : Nat)
    (ha : c.validAfter ≠ 0) (hb : c.validBefore ≠ 0) :
    (c.validBefore ≤ now →
      validateCertificate (Sum.inr c) u now =
        { valid := false, reason := some "Certificate has expired" }) ∧
    (now < c.validBefore → now < c.validAfter →
      validateCertificate (Sum.inr c) u now =
        { valid := false, reason := some "Certificate is not yet valid" }) ∧
    (c.validAfter ≤ now → now < c.validBefore →
      validateCertificate (Sum.inr c) u now =
        validateCertificate
          (Sum.inr ⟨c.certType, c.principals, 0, 0⟩) u now) ∧
    (¬(c.validAfter ≤ now ∧ now < c.validBefore) →
      validateCertificate (Sum.inr c) u now =
        { valid := false, reason := some "Certificate has expired" } ∨
      validateCertificate (Sum.inr c) u now =
        { valid := false, reason := some "Certificate is not yet valid" }) := by
  refine ⟨?_, ?_, ?_, ?_⟩
  · intro h
    simp only [validateCertificate, if_pos (show c.validBefore ≠ 0 ∧
      c.validBefore ≤ now from ⟨hb, h⟩)]
  · intro h1 h2
    simp only [validateCertificate,
      if_neg (show ¬(c.validBefore ≠ 0 ∧ c.validBefore ≤ now) by omega),
      if_pos (show c.validAfter ≠ 0 ∧ now < c.validAfter from ⟨ha, h2⟩)]
  · intro h1 h2
    simp only [validateCertificate,
      if_neg (show ¬(c.validBefore ≠ 0 ∧ c.validBefore ≤ now) by omega),
      if_neg (show ¬(c.validAfter ≠ 0 ∧ now < c.validAfter) by omega),
      if_neg (show ¬((0 : Nat) ≠ 0 ∧ (0 : Nat) ≤ now) by omega),
      if_neg (show ¬((0 : Nat) ≠ 0 ∧ now < 0) by omega)]
  · intro h
    by_cases hexp : c.validBefore ≤ now
    · exact Or.inl (by simp only [validateCertificate,
        if_pos (show c.validBefore ≠ 0 ∧ c.validBefore ≤ now
          from ⟨hb, hexp⟩)])
    · refine Or.inr ?_
      have h2 : now < c.validAfter := by omega
      simp only [validateCertificate,
        if_neg (show ¬(c.validBefore ≠ 0 ∧ c.validBefore ≤ now) by omega),
        if_pos (show c.validAfter ≠ 0 ∧ now < c.validAfter from ⟨ha, h2⟩)]

/-- C2 (witness): a certificate valid on `[10, 20)` is reported expired
at `now = 25`, not yet valid at `now = 5`, and at `now = 15` gets the
same verdict as with the temporal checks disabled. -/
theorem c2_temporal_window_witness :
    validateCertificate (Sum.inr ⟨"user", [], 10, 20⟩) "u" 25 =
      { valid := false, reason := some "Certificate has expired" } ∧
    validateCertificate (Sum.inr ⟨"user", [], 10, 20⟩) "u" 5 =
      { valid := false, reason := some "Certificate is not yet valid" } :=
  ⟨(c2_temporal_window _ "u" 25 (by decide) (by decide)).1 (by decide),
   (c2_temporal_window _ "u" 5 (by decide) (by decide)).2.1 (by decide)
     (by decide)⟩

/-- C3: within the validity window the principal check applies only to
user certificates with a non-empty principal list: empty principals
accept every username; non-user certificates skip the check; a user
certificate with non-empty principals rejects a username not in the
list with a reason naming the username and the comma-joined principals,
and accepts any username in the list. -/
theorem c3_principal_check (c : VCert) (u : String) (now : Nat)
    (hwin : c.validAfter ≤ now ∧ now < c.validBefore) :
    (c.principals = [] →
      validateCertificate (Sum.inr c) u now =
        { valid := true, reason := none }) ∧
    (c.certType ≠ "user" →
      validateCertificate (Sum.inr c) u now =
        { valid := true, reason := none }) ∧
    (c.certType = "user" → c.principals ≠ [] → u ∉ c.principals →
      validateCertificate (Sum.inr c) u now =
        { valid := false,
          reason := some ("Username \"" ++ u ++
            "\" not in certificate principals: " ++
            String.intercalate ", " c.principals) }) ∧
    (u ∈ c.principals →
      validateCertificate (Sum.inr c) u now =
        { valid := true, reason := none }) := by
  obtain ⟨ha, hb⟩ := hwin
  have g1 : ¬(c.validBefore ≠ 0 ∧ c.validBefore ≤ now) := by omega
  have g2 : ¬(c.validAfter ≠ 0 ∧ now < c.validAfter) := by omega
  refine ⟨?_, ?_, ?_, ?_⟩
  · intro h
    simp only [validateCertificate, if_neg g1, if_neg g2,
      if_neg (show ¬(c.certType = "user" ∧ c.principals ≠ [] ∧
        u ∉ c.principals) from fun hx => hx.2.1 h)]
  · intro h
    simp only [validateCertificate, if_neg g1, if_neg g2,
      if_neg (show ¬(c.certType = "user" ∧ c.principals ≠ [] ∧
        u ∉ c.principals) from fun hx => h hx.1)]
  · intro h1 h2 h3
    simp only [validateCertificate, if_neg g1, if_neg g2,
      if_pos (show c.certType = "user" ∧ c.principals ≠ [] ∧
        u ∉ c.principals from ⟨h1, h2, h3⟩)]
  · intro h
    simp only [validateCertificate, if_neg g1, if_neg g2,
      if_neg (show ¬(c.certType = "user" ∧ c.principals ≠ [] ∧
        u ∉ c.principals) from fun hx => hx.2.2 h)]

/-- C3 (witness): with principals `["admin", "root"]` on `[1, 100)` at
`now = 50`, `"testuser"` is rejected with the reason naming it and the
comma-joined list, `"admin"` is accepted, and the same certificate with
no principals accepts `"anybody"`. -/
theorem c3_principal_check_witness :
    validateCertificate (Sum.inr ⟨"user", ["admin", "root"], 1, 100⟩)
      "testuser" 50 =
      ⟨false, some
        "Username \"testuser\" not in certificate principals: admin, root"⟩ ∧
    validateCertificate (Sum.inr ⟨"user", ["admin", "root"], 1, 100⟩)
      "admin" 50 = { valid := true, reason := none } ∧
    validateCertificate (Sum.inr ⟨"user", [], 1, 100⟩) "anybody" 50 =
      { valid := true, reason := none } := by
  refine ⟨?_, ?_, ?_⟩
  · have h := (c3_principal_check ⟨"user", ["admin", "root"], 1, 100⟩
      "testuser" 50 (by decide)).2.2.1 rfl (by decide) (by decide)
    rw [h]
    decide
  · exact (c3_principal_check _ "admin" 50 (by decide)).2.2.2 (by decide)
  · exact (c3_principal_check _ "anybody" 50 (by decide)).1 rfl

/-- C5: the validator's four checks run in the fixed order
failure-input, expired, not-yet-valid, principal-mismatch and
short-circuit on the first failure: a failure input yields its message
verbatim regardless of anything else; a firing expired check yields
"Certificate has expired" regardless of the later checks (in particular
for a certificate that also has a principal mismatch); a firing
not-yet-valid check (with the expired check silent) yields "Certificate
is not yet valid" regardless of principals; the mismatch reason appears
only when all three earlier checks are silent. -/
theorem c5_check_order_short_circuit (msg : String) (c : VCert)
    (u : String) (now : Nat) :
    (validateCertificate (Sum.inl msg) u now =
      { valid := false, reason := some msg }) ∧
    (c.validBefore ≠ 0 → c.validBefore ≤ now →
      validateCertificate (Sum.inr c) u now =
        { valid := false, reason := some "Certificate has expired" }) ∧
    (¬(c.validBefore ≠ 0 ∧ c.validBefore ≤ now) → c.validAfter ≠ 0 →
      now < c.validAfter →
      validateCertificate (Sum.inr c) u now =
        { valid := false, reason := some "Certificate is not yet valid" }) ∧
    (¬(c.validBefore ≠ 0 ∧ c.validBefore ≤ now) →
      ¬(c.validAfter ≠ 0 ∧ now < c.validAfter) →
      c.certType = "user" → c.principals ≠ [] → u ∉ c.principals →
      validateCertificate (Sum.inr c) u now =
        { valid := false,
          reason := some ("Username \"" ++ u ++
            "\" not in certificate principals: " ++
            String.intercalate ", " c.principals) }) := by
  refine ⟨rfl, ?_, ?_, ?_⟩
  · intro h1 h2
    simp only [validateCertificate, if_pos (show c.validBefore ≠ 0 ∧
      c.validBefore ≤ now from ⟨h1, h2⟩)]
  · intro h1 h2 h3
    simp only [validateCertificate, if_neg h1,
      if_pos (show c.validAfter ≠ 0 ∧ now < c.validAfter from ⟨h2, h3⟩)]
  · intro h1 h2 h3 h4 h5
    simp only [validateCertificate, if_neg h1, if_neg h2,
      if_pos (show c.certType = "user" ∧ c.principals ≠ [] ∧
        u ∉ c.principals from ⟨h3, h4, h5⟩)]

/-- C5 (witness): a certificate that is both expired and has a
principal mismatch reports only "Certificate has expired", and a
failure input's message is propagated verbatim. -/
theorem c5_check_order_witness :
    validateCertificate (Sum.inr ⟨"user", ["admin"], 1, 10⟩) "bob" 99 =
      { valid := false, reason := some "Certificate has expired" } ∧
    validateCertificate (Sum.inl "Invalid certificate buffer") "bob" 99 =
      { valid := false, reason := some "Invalid certificate buffer" } :=
  ⟨(c5_check_order_short_circuit "m" ⟨"user", ["admin"], 1, 10⟩ "bob"
      99).2.1 (by decide) (by decide),
   (c5_check_order_short_circuit "Invalid certificate buffer"
      ⟨"user", [], 0, 0⟩ "bob" 99).1⟩

/-- C6: `wrapKeyWithCertificate` returns the not-a-buffer failure on a
non-buffer input, the not-a-certificate failure when the sniffer
rejects, propagates a decode failure as the same failure value, and —
being a pure total function that never throws — its failure results are
independent of the base key, which it never touches. -/
theorem c6_wrap_error_paths (k k2 : BaseKey) (cb : List Nat)
    (e : DecodeErr) :
    (wrapKeyWithCertificate k none = .error .notABuffer) ∧
    (isCertificateB cb = false →
      wrapKeyWithCertificate k (some cb) = .error .notACertificate) ∧
    (isCertificateB cb = true → parseSSHCertificateB cb = .error e →
      wrapKeyWithCertificate k (some cb) = .error (.decodeFailed e)) ∧
    (∀ w : WrapErr, wrapKeyWithCertificate k (some cb) = .error w →
      wrapKeyWithCertificate k2 (some cb) = .error w) := by
  refine ⟨rfl, ?_, ?_, ?_⟩
  · intro h
    simp only [wrapKeyWithCertificate, if_neg (show ¬isCertificateB cb =
      true by simp [h])]
  · intro h1 h2
    simp only [wrapKeyWithCertificate, if_pos h1, h2]
  · intro w h
    by_cases h1 : isCertificateB cb = true
    · simp only [wrapKeyWithCertificate, if_pos h1] at h ⊢
      cases hp : parseSSHCertificateB cb with
      | error e2 =>
        simp only [hp] at h
        simpa using h
      | ok cert =>
        simp only [hp] at h
        exact absurd h (by simp)
    · simp only [wrapKeyWithCertificate, if_neg h1] at h ⊢
      exact h

/-- C6 (witness): a short non-certificate buffer, a non-buffer input
and a sniffer-passing but truncated buffer each fail as claimed. -/
theorem c6_wrap_error_witness :
    wrapKeyWithCertificate trivialKey (some [1, 2, 3]) =
      .error .notACertificate ∧
    wrapKeyWithCertificate trivialKey none = .error .notABuffer ∧
    wrapKeyWithCertificate trivialKey (some exSniffOnly) =
      .error (.decodeFailed .truncated) :=
  ⟨(c6_wrap_error_paths trivialKey trivialKey [1, 2, 3] .truncated).2.1
      (by decide),
   (c6_wrap_error_paths trivialKey trivialKey [] .truncated).1,
   (c6_wrap_error_paths trivialKey trivialKey exSniffOnly .truncated).2.2.1
      (by decide) rfl⟩

/-- C7: every successfully constructed `CertificateKey` delegates
`sign`, `verify`, `isPrivateKey`, `getPublicSSH` and `getPublicPEM` to
the wrapped base key unchanged: each returns exactly what the
corresponding base-key operation returns on the same inputs (for the
two optional accessors, through the same `?.` optional call). -/
theorem c7_certified_key_delegates (bk : BaseKey) (cb : Option (List Nat))
    (ck : CertificateKey) (data sig : List Nat) (algo : String)
    (h : wrapKeyWithCertificate bk cb = .ok ck) :
    ck.sign data algo = bk.sign data algo ∧
    ck.verify data sig algo = bk.verify data sig algo ∧
    ck.isPriv = bk.isPriv ∧
    ck.getPublicSSH algo = bk.getPublicSSH.map (fun f => f algo) ∧
    ck.getPublicPEM = bk.getPublicPEM := by
  have hb : ck.baseKey = bk := by
    cases cb with
    | none => exact absurd h (by simp [wrapKeyWithCertificate])
    | some b =>
      by_cases hc : isCertificateB b = true
      · simp only [wrapKeyWithCertificate, if_pos hc] at h
        cases hp : parseSSHCertificateB b with
        | error e =>
          simp only [hp] at h
          exact absurd h (by simp)
        | ok cert =>
          simp only [hp, Except.ok.injEq] at h
          rw [← h]
          rfl
      · simp only [wrapKeyWithCertificate, if_neg hc] at h
        exact absurd h (by simp)
  exact ⟨by rw [CertificateKey.sign, hb], by rw [CertificateKey.verify, hb],
    by rw [CertificateKey.isPriv, hb], by rw [CertificateKey.getPublicSSH, hb],
    by rw [CertificateKey.getPublicPEM, hb]⟩

/-- C7 (witness): the concrete wrapped key's operations agree with the
base key's on concrete inputs. -/
theorem c7_certified_key_witness :
    (CertificateKey.mk' trivialKey exCert exCertBuf).sign [1, 2] "a" =
      trivialKey.sign [1, 2] "a" ∧
    (CertificateKey.mk' trivialKey exCert exCertBuf).getPublicPEM =
      trivialKey.getPublicPEM :=
  have hw : wrapKeyWithCertificate trivialKey (some exCertBuf) =
      .ok (CertificateKey.mk' trivialKey exCert exCertBuf) := by
    simp only [wrapKeyWithCertificate, if_pos (show isCertificateB exCertBuf =
      true by decide), exCertBuf_decodes]
  have h := c7_certified_key_delegates trivialKey (some exCertBuf)
    (CertificateKey.mk' trivialKey exCert exCertBuf) [1, 2] [3] "a" hw
  ⟨h.1, h.2.2.2.2⟩

/-- C9: `extractCertificateFromData` returns `null` (not a failure) on
every buffer the sniffer rejects, and on every buffer the sniffer
accepts it returns `{certBuffer}` without consulting the codec — even
when decoding would fail, in which case the decode failure surfaces
only inside `wrapKeyWithCertificate`. -/
theorem c9_extract_never_decodes (b : List Nat) (k : BaseKey)
    (e : DecodeErr) :
    (isCertificateB b = false →
      extractCertificateFromData (some b) = .nullResult) ∧
    (isCertificateB b = true →
      extractCertificateFromData (some b) = .found b) ∧
    (isCertificateB b = true → parseSSHCertificateB b = .error e →
      extractCertificateFromData (some b) = .found b ∧
      wrapKeyWithCertificate k (some b) = .error (.decodeFailed e)) := by
  refine ⟨?_, ?_, ?_⟩
  · intro h
    simp only [extractCertificateFromData,
      if_neg (show ¬isCertificateB b = true by simp [h])]
  · intro h
    simp only [extractCertificateFromData, if_pos h]
  · intro h1 h2
    refine ⟨by simp only [extractCertificateFromData, if_pos h1], ?_⟩
    simp only [wrapKeyWithCertificate, if_pos h1, h2]

/-- C9 (witness): a plain 3-byte buffer yields `null`; the
sniffer-passing truncated buffer yields `{certBuffer}` from the
extractor while `wrapKeyWithCertificate` reports the decode failure. -/
theorem c9_extract_never_decodes_witness :
    extractCertificateFromData (some [1, 2, 3]) = .nullResult ∧
    extractCertificateFromData (some exSniffOnly) = .found exSniffOnly ∧
    wrapKeyWithCertificate trivialKey (some exSniffOnly) =
      .error (.decodeFailed .truncated) :=
  have h := (c9_extract_never_decodes exSniffOnly trivialKey
    .truncated).2.2 (by decide) rfl
  ⟨(c9_extract_never_decodes [1, 2, 3] trivialKey .truncated).1 (by decide),
   h.1, h.2⟩

/-- If `bs` starts with `p`, and `q` differs from `p` at index `i`
(within both), then `bs` does not start with `q`. -/
theorem startsWith_excl {bs : List Nat} (p q : List Nat) (i : Nat)
    (hip : i < p.length) (hiq : i < q.length)
    (hne : p.getD i 0 ≠ q.getD i 0)
    (h1 : startsWithSeq bs p = true) : startsWithSeq bs q = false := by
  by_contra h2
  rw [Bool.not_eq_false] at h2
  exact hne ((startsWithSeq_getD h1 i hip).symm.trans
    (startsWithSeq_getD h2 i hiq))

/-- C8 (counterexample): a buffer whose decoded algorithm identifier
`"x"` begins with none of the four supported prefixes, yet whose decode
fails with the truncated failure, not with `UnsupportedKeyType` — the
nonce field is read (and here runs out of buffer) before the
identifier is dispatched. -/
theorem c8_counterexample_truncated_nonce :
    parseSSHCertificateB [0, 0, 0, 1, 120, 0, 0, 0] = .error .truncated ∧
    readStringA [0, 0, 0, 1, 120, 0, 0, 0] 0 = .ok ([120], 5) ∧
    keySkipCount [120] = none :=
  ⟨rfl, rfl, rfl⟩

/-- C8 (amended): once the identifier and nonce fields are both
readable, decode fails with `UnsupportedKeyType` naming the identifier
iff the identifier begins with none of `ssh-rsa`, `ecdsa-sha2-nistp`,
`ssh-ed25519`, `ssh-dss`; and otherwise it skips exactly 2 key-material
fields for `ssh-rsa*`, 2 for `ecdsa-sha2-nistp*`, 1 for `ssh-ed25519*`
and 4 for `ssh-dss*` before reading the serial and the remaining
fields. -/
theorem c8_unsupported_dispatch (buf id nonce : List Nat) (p1 p2 : Nat)
    (h1 : readStringA buf 0 = .ok (id, p1))
    (h2 : readStringA buf p1 = .ok (nonce, p2)) :
    (parseSSHCertificateB buf = .error (.unsupportedCertType id) ↔
      keySkipCount id = none) ∧
    (keySkipCount id = none ↔
      ¬(startsWithSeq id sshRsaId = true ∨ startsWithSeq id ecdsaId = true ∨
        startsWithSeq id sshEd25519Id = true ∨
        startsWithSeq id sshDssId = true)) ∧
    (startsWithSeq id sshRsaId = true → keySkipCount id = some 2) ∧
    (startsWithSeq id ecdsaId = true → keySkipCount id = some 2) ∧
    (startsWithSeq id sshEd25519Id = true → keySkipCount id = some 1) ∧
    (startsWithSeq id sshDssId = true → keySkipCount id = some 4) ∧
    (∀ k, keySkipCount id = some k →
      parseSSHCertificateB buf =
        match skipFields buf p2 k with
        | .error e => .error e
        | .ok p3 => parseAfterSkips buf id nonce p3) := by
  obtain ⟨hp1a, hp1b, _, _⟩ := readStringA_ok_bounds h1
  obtain ⟨hp2a, hp2b, _, _⟩ := readStringA_ok_bounds h2
  have hlen : ¬(buf.length < 8) := by omega
  have hdec : parseSSHCertificateB buf =
      match keySkipCount id with
      | none => .error (.unsupportedCertType id)
      | some k =>
        match skipFields buf p2 k with
        | .error e => .error e
        | .ok p3 => parseAfterSkips buf id nonce p3 := by
    unfold parseSSHCertificateB
    simp only [if_neg hlen, h1, h2]
  refine ⟨?_, ?_, ?_, ?_, ?_, ?_, ?_⟩
  · rw [hdec]
    cases hk : keySkipCount id with
    | none => simp
    | some k =>
      simp only [reduceCtorEq, iff_false]
      cases hs : skipFields buf p2 k with
      | error e =>
        have he : e = .truncated := skipFields_error hs
        subst he
        simp
      | ok p3 =>
        cases hps : parseAfterSkips buf id nonce p3 with
        | error e =>
          have he : e = .truncated := parseAfterSkips_error hps
          subst he
          simp [hps]
        | ok c => simp [hps]
  · unfold keySkipCount
    split_ifs with ha hb hc hd <;> simp_all
  · intro h
    simp only [keySkipCount, if_pos h]
  · intro h
    have hrsa : ¬(startsWithSeq id sshRsaId = true) := by
      rw [startsWith_excl ecdsaId sshRsaId 0 (by decide) (by decide)
        (by decide) h]
      simp
    simp only [keySkipCount, if_neg hrsa, if_pos h]
  · intro h
    have hrsa : ¬(startsWithSeq id sshRsaId = true) := by
      rw [startsWith_excl sshEd25519Id sshRsaId 4 (by decide) (by decide)
        (by decide) h]
      simp
    have hec : ¬(startsWithSeq id ecdsaId = true) := by
      rw [startsWith_excl sshEd25519Id ecdsaId 0 (by decide) (by decide)
        (by decide) h]
      simp
    simp only [keySkipCount, if_neg hrsa, if_neg hec, if_pos h]
  · intro h
    have hrsa : ¬(startsWithSeq id sshRsaId = true) := by
      rw [startsWith_excl sshDssId sshRsaId 4 (by decide) (by decide)
        (by decide) h]
      simp
    have hec : ¬(startsWithSeq id ecdsaId = true) := by
      rw [startsWith_excl sshDssId ecdsaId 0 (by decide) (by decide)
        (by decide) h]
      simp
    have hed : ¬(startsWithSeq id sshEd25519Id = true) := by
      rw [startsWith_excl sshDssId sshEd25519Id 4 (by decide) (by decide)
        (by decide) h]
      simp
    simp only [keySkipCount, if_neg hrsa, if_neg hec, if_neg hed, if_pos h]
  · intro k hk
    rw [hdec, hk]

/-- C8 (witness): the concrete buffer with identifier `"x"` and a
readable (empty) nonce fails with `UnsupportedKeyType` naming `"x"`,
and the four supported prefixes map to their skip counts. -/
theorem c8_unsupported_dispatch_witness :
    parseSSHCertificateB exUnsupported =
      .error (.unsupportedCertType [120]) ∧
    keySkipCount sshRsaId = some 2 ∧
    keySkipCount sshEd25519Id = some 1 ∧
    keySkipCount sshDssId = some 4 :=
  ⟨(c8_unsupported_dispatch exUnsupported [120] [] 5 9 rfl rfl).1.mpr rfl,
   (c8_unsupported_dispatch ([0, 0, 0, 7] ++ sshRsaId ++ [0, 0, 0, 0])
     sshRsaId [] 11 15 (by rfl) (by rfl)).2.2.1 (by decide),
   (c8_unsupported_dispatch ([0, 0, 0, 11] ++ sshEd25519Id ++ [0, 0, 0, 0])
     sshEd25519Id [] 15 19 (by rfl) (by rfl)).2.2.2.2.1 (by decide),
   (c8_unsupported_dispatch ([0, 0, 0, 7] ++ sshDssId ++ [0, 0, 0, 0])
     sshDssId [] 11 15 (by rfl) (by rfl)).2.2.2.2.2.1 (by decide)⟩
